import Mathlib

/-!
Shallow embedding of the room state engine of the `xr-collab` repository
(`src/backend/rooms.js`, `src/backend/undo-redo.js`, `src/backend/server.js`)
and proofs about the undo/redo operation log, the object store, whiteboard
history, whiteboard locks and room membership.

Modelling conventions:
- JavaScript objects become Lean structures; a field that can be absent,
  `undefined` or `null` becomes an `Option`.
- JavaScript string truthiness (both `null`/`undefined` and `""` are falsy)
  is modelled explicitly where the code relies on it.
- `Date.now()` is threaded as an explicit `now : Nat` parameter; randomly
  generated fresh ids are threaded as an explicit `freshId : String`.
- In-place mutation becomes state passing: functions return the new state.
- `deepClone` is the identity on immutable Lean values and disappears.
- Scene coordinates are `Rat` (JS numbers on the values the system uses).
- The sha256 hash of `crypto` is an abstract parameter `sha256 : String → String`.
- The room timeline (`appendTimeline` / `maxTimeline`) and the display-ready
  history entries (`toHistoryEntry`) only format data for the UI and are not
  modelled; `getHistory` is modelled by its counts.
-/

namespace XRCollab

/-- Truthiness of an optional JS string: `undefined`, `null` and `""` are falsy. -/
def strTruthy : Option String → Bool
  | some s => s ≠ ""
  | none => false

/-- A 3-component vector `{x, y, z}` as used for position/rotation/scale. -/
structure Vec3 where
  x : Rat
  y : Rat
  z : Rat
deriving DecidableEq, Repr

/-- A raw JS object payload as passed to `RoomManager.normalizeObjectPayload` /
`updateObject`: every field may be absent.  `id` stands for the `id`/`objectId`
pair (rooms.js reads `object?.id ?? object?.objectId` and always writes both).
`version`, `updatedAt`, `lastModifiedBy` model `_version`, `_updatedAt`,
`_lastModifiedBy`.  `material` models `material.type`. -/
structure ObjectPayload where
  id : Option String := none
  type : Option String := none
  position : Option Vec3 := none
  rotation : Option Vec3 := none
  scale : Option Vec3 := none
  color : Option Int := none
  material : Option String := none
  createdAt : Option Nat := none
  createdBy : Option String := none
  version : Option Nat := none
  updatedAt : Option Nat := none
  lastModifiedBy : Option String := none
deriving DecidableEq, Repr

/-- A normalized scene object as stored in `room.objects` (the output shape of
`RoomManager.normalizeObjectPayload`). -/
structure SceneObject where
  id : String
  type : Option String
  position : Vec3
  rotation : Vec3
  scale : Vec3
  color : Int
  material : String
  createdAt : Nat
  createdBy : Option String
  version : Nat
  updatedAt : Nat
  lastModifiedBy : Option String
deriving DecidableEq, Repr

/-- `RoomManager.normalizeObjectPayload(object, actorId)` (rooms.js:101-134).
Defaults are filled in; `_version` is `Number(_version || 0)`, `_updatedAt` is
`Number(_updatedAt || now)`; when `actorId` is truthy the version is bumped,
`_updatedAt` is set to `now` and `_lastModifiedBy`/`createdBy` are stamped. -/
def normalizeObjectPayload (object : ObjectPayload) (actorId : Option String)
    (now : Nat) (freshId : String) : SceneObject :=
  let objectId :=
    match object.id with
    | some s => if s = "" then freshId else s
    | none => freshId
  let base : SceneObject :=
    { id := objectId
      type := object.type
      position := object.position.getD ⟨0, 1, 0⟩
      rotation := object.rotation.getD ⟨0, 0, 0⟩
      scale := object.scale.getD ⟨1, 1, 1⟩
      color := object.color.getD 0xff0000
      material := object.material.getD "MeshStandardMaterial"
      createdAt :=
        match object.createdAt with
        | some t => if t = 0 then now else t
        | none => now
      createdBy := object.createdBy
      version := object.version.getD 0
      updatedAt :=
        match object.updatedAt with
        | some t => if t = 0 then now else t
        | none => now
      lastModifiedBy :=
        match object.lastModifiedBy with
        | some s => if s = "" then none else some s
        | none => none }
  match actorId with
  | some actor =>
      if actor = "" then base
      else
        { base with
          version := base.version + 1
          updatedAt := now
          lastModifiedBy := some actor
          createdBy :=
            match base.createdBy with
            | some s => if s = "" then some actor else some s
            | none => some actor }
  | none => base

/-- Re-read a stored object as a payload (what `deepClone` of a stored object
yields when fed back into an object-taking API). -/
def SceneObject.toPayload (o : SceneObject) : ObjectPayload :=
  { id := some o.id
    type := o.type
    position := some o.position
    rotation := some o.rotation
    scale := some o.scale
    color := some o.color
    material := some o.material
    createdAt := some o.createdAt
    createdBy := o.createdBy
    version := some o.version
    updatedAt := some o.updatedAt
    lastModifiedBy := o.lastModifiedBy }

/-- `RoomManager.getObject` (rooms.js:252-262): first object whose id matches. -/
def getObject (objects : List SceneObject) (objectId : String) : Option SceneObject :=
  objects.find? (fun candidate => candidate.id = objectId)

/-- Replace the first object with the same id, else push
(the `findIndex` / replace-or-push body of `upsertObject`, rooms.js:271-279). -/
def upsertIntoList (objects : List SceneObject) (normalized : SceneObject) :
    List SceneObject :=
  match objects with
  | [] => [normalized]
  | o :: rest =>
      if o.id = normalized.id then normalized :: rest
      else o :: upsertIntoList rest normalized

/-- `RoomManager.upsertObject(roomId, object, actorId)` (rooms.js:264-283),
restricted to one room's object list.  Returns the new list and the stored
(normalized) object. -/
def upsertObject (objects : List SceneObject) (object : ObjectPayload)
    (actorId : Option String) (now : Nat) (freshId : String) :
    List SceneObject × SceneObject :=
  let normalized := normalizeObjectPayload object actorId now freshId
  (upsertIntoList objects normalized, normalized)

/-- `RoomManager.removeObject` (rooms.js:289-305): splice out the first object
with a matching id; `(unchanged list, none)` when absent. -/
def removeObject (objects : List SceneObject) (objectId : String) :
    List SceneObject × Option SceneObject :=
  match objects with
  | [] => ([], none)
  | o :: rest =>
      if o.id = objectId then (rest, some o)
      else
        let r := removeObject rest objectId
        (o :: r.1, r.2)

/-- The shallow spread `{...deepClone(currentObject), ...deepClone(updates),
id: ..., objectId: ...}` of `RoomManager.updateObject` (rooms.js:332-337):
fields present in `updates` win, the id is forced back to the current one. -/
def mergeObjectUpdates (current : SceneObject) (updates : ObjectPayload) :
    ObjectPayload :=
  { id := some current.id
    type := updates.type <|> current.type
    position := some (updates.position.getD current.position)
    rotation := some (updates.rotation.getD current.rotation)
    scale := some (updates.scale.getD current.scale)
    color := some (updates.color.getD current.color)
    material := some (updates.material.getD current.material)
    createdAt := some (updates.createdAt.getD current.createdAt)
    createdBy := updates.createdBy <|> current.createdBy
    version := some (updates.version.getD current.version)
    updatedAt := some (updates.updatedAt.getD current.updatedAt)
    lastModifiedBy := updates.lastModifiedBy <|> current.lastModifiedBy }

/-- `RoomManager.updateObject(roomId, objectId, updates, actorId)`
(rooms.js:318-344): find the first object with the id, shallow-merge the
updates over it, re-normalize with the actor, store it back.  `none` when the
object is absent. -/
def updateObject (objects : List SceneObject) (objectId : String)
    (updates : ObjectPayload) (actorId : Option String) (now : Nat) :
    Option (List SceneObject × SceneObject) :=
  match objects with
  | [] => none
  | o :: rest =>
      if o.id = objectId then
        let normalized :=
          normalizeObjectPayload (mergeObjectUpdates o updates) actorId now o.id
        some (normalized :: rest, normalized)
      else
        match updateObject rest objectId updates actorId now with
        | some (rest', updated) => some (o :: rest', updated)
        | none => none

/-- `RoomManager.clearObjects` (rooms.js:307-316): empty the list, return the
removed objects. -/
def clearObjects (objects : List SceneObject) :
    List SceneObject × List SceneObject :=
  ([], objects)

/-! ## Command model (`src/backend/undo-redo.js`) -/

/-- `COMMAND_TYPES` (undo-redo.js:1-6). -/
inductive CommandType where
  | createObject
  | deleteObject
  | updateObject
  | clearObjects
deriving DecidableEq, Repr

/-- A command's `before`/`after` snapshot: a single object payload for
CREATE/DELETE/UPDATE commands, a list of payloads for CLEAR_OBJECTS. -/
inductive Snapshot where
  | obj (payload : ObjectPayload)
  | objectList (payloads : List ObjectPayload)
deriving DecidableEq, Repr

/-- The `meta` bag of a command; the fields the engine reads. -/
structure CommandMeta where
  action : Option String := none
  mergeKey : Option String := none
  merged : Option Nat := none
deriving DecidableEq, Repr

/-- A command as built by `BaseCommand`'s constructor (undo-redo.js:13-26);
`type` selects the subclass created by `createCommand`.  The random `id`
field is not modelled (nothing claimed reads it). -/
structure Command where
  type : CommandType
  userId : String
  objectId : Option String
  timestamp : Nat
  before : Option Snapshot
  after : Option Snapshot
  meta : CommandMeta
deriving DecidableEq, Repr

/-- `createCommand(payload)` through `BaseCommand`'s constructor:
`this.objectId = payload.objectId || null` (a falsy id, including `""`,
becomes `null`). -/
def mkCommand (type : CommandType) (userId : String) (objectId : Option String)
    (timestamp : Nat) (before after : Option Snapshot) (meta : CommandMeta) :
    Command :=
  { type := type
    userId := userId
    objectId :=
      match objectId with
      | some s => if s = "" then none else some s
      | none => none
    timestamp := timestamp
    before := before
    after := after
    meta := meta }

/-- `ClearObjectsCommand.undo`'s helper `context.restoreObjects` as built by
`buildCommandContext` (server.js:318-322): upsert every snapshot in order. -/
def restoreObjects (objects : List SceneObject) (payloads : List ObjectPayload)
    (actorId : Option String) (now : Nat) (freshId : String) :
    List SceneObject :=
  payloads.foldl
    (fun acc payload => (upsertObject acc payload actorId now freshId).1) objects

/-- `command.execute(context)` for each command subclass
(undo-redo.js:73-142), acting on one room's object list via the context of
`buildCommandContext` (server.js:309-324).  A falsy guard (`!this.after`,
`!this.objectId`, ...) makes the command a no-op. -/
def Command.executeOn (c : Command) (objects : List SceneObject) (now : Nat)
    (freshId : String) : List SceneObject :=
  match c.type with
  | .createObject =>
      match c.after with
      | some (.obj payload) => (upsertObject objects payload (some c.userId) now freshId).1
      | _ => objects
  | .deleteObject =>
      match c.objectId with
      | some oid => (removeObject objects oid).1
      | none => objects
  | .updateObject =>
      match c.objectId, c.after with
      | some oid, some (.obj payload) =>
          match updateObject objects oid payload (some c.userId) now with
          | some (objects', _) => objects'
          | none => objects
      | _, _ => objects
  | .clearObjects => (clearObjects objects).1

/-- `command.undo(context)` for each command subclass (undo-redo.js:73-142). -/
def Command.undoOn (c : Command) (objects : List SceneObject) (now : Nat)
    (freshId : String) : List SceneObject :=
  match c.type with
  | .createObject =>
      match c.objectId with
      | some oid => (removeObject objects oid).1
      | none => objects
  | .deleteObject =>
      match c.before with
      | some (.obj payload) => (upsertObject objects payload (some c.userId) now freshId).1
      | _ => objects
  | .updateObject =>
      match c.objectId, c.before with
      | some oid, some (.obj payload) =>
          match updateObject objects oid payload (some c.userId) now with
          | some (objects', _) => objects'
          | none => objects
      | _, _ => objects
  | .clearObjects =>
      restoreObjects objects
        (match c.before with
         | some (.objectList payloads) => payloads
         | _ => []) (some c.userId) now freshId

/-- `UpdateObjectCommand.canMergeWith(nextCommand, mergeWindowMs)`
(undo-redo.js:108-119), including the dynamic dispatch: only an
UPDATE_OBJECT command overrides the always-false `BaseCommand.canMergeWith`,
and the receiver checks `nextCommand instanceof UpdateObjectCommand`.
`nextCommand.timestamp - this.timestamp` is JS subtraction; a negative
difference is `≤ mergeWindowMs` there and truncated `Nat` subtraction gives
the same verdict. -/
def canMergeWith (this next : Command) (mergeWindowMs : Nat) : Bool :=
  this.type = CommandType.updateObject &&
  next.type = CommandType.updateObject &&
  (match this.objectId with
   | some oid => oid ≠ "" && next.objectId = some oid
   | none => false) &&
  strTruthy this.meta.mergeKey &&
  strTruthy next.meta.mergeKey &&
  this.meta.mergeKey = next.meta.mergeKey &&
  next.timestamp - this.timestamp ≤ mergeWindowMs

/-- `(this.meta?.merged || 1)`: the merged counter read with JS falsiness. -/
def mergedCount (meta : CommandMeta) : Nat :=
  match meta.merged with
  | some n => if n = 0 then 1 else n
  | none => 1

/-- `UpdateObjectCommand.merge(nextCommand)` (undo-redo.js:121-130): take the
later command's `after` and timestamp, spread the metas (later wins per key)
and bump the `merged` counter. -/
def mergeCommands (this next : Command) : Command :=
  { this with
    after := next.after
    timestamp := next.timestamp
    meta :=
      { action := next.meta.action <|> this.meta.action
        mergeKey := next.meta.mergeKey <|> this.meta.mergeKey
        merged := some (mergedCount this.meta + 1) } }

/-! ## Operation log manager (`src/backend/undo-redo.js:159-339`) -/

/-- One user's `{ undo: Command[], redo: Command[] }` stacks; the top of each
stack is the LAST list element (JS `push`/`pop` at the end). -/
structure UserStacks where
  undo : List Command := []
  redo : List Command := []
deriving DecidableEq, Repr

/-- Push at the end and `shift()` the oldest entry away when the stack
exceeds `maxSteps` (the push bodies in `record`/`undo`/`redo`). -/
def pushWithCap (maxSteps : Nat) (stackList : List Command) (command : Command) :
    List Command :=
  let pushed := stackList ++ [command]
  if pushed.length > maxSteps then pushed.tail else pushed

/-- `OperationLogManager.record(roomId, userId, command)` (undo-redo.js:208-230)
on one user's stacks: merge into the top of the undo stack when possible,
else push (evicting the oldest past `maxSteps`); always clear the redo stack. -/
def record (maxSteps mergeWindowMs : Nat) (stack : UserStacks)
    (command : Command) : UserStacks :=
  let undoStack :=
    match stack.undo.getLast? with
    | some lastCommand =>
        if canMergeWith lastCommand command mergeWindowMs then
          stack.undo.dropLast ++ [mergeCommands lastCommand command]
        else pushWithCap maxSteps stack.undo command
    | none => pushWithCap maxSteps stack.undo command
  { undo := undoStack, redo := [] }

/-- The conflict record returned by `OperationLogManager.detectConflict`. -/
structure Conflict where
  objectId : String
  lastModifiedBy : String
  updatedAt : Nat
  strategy : String
deriving DecidableEq, Repr

/-- `OperationLogManager.detectConflict(command, userId, context)`
(undo-redo.js:232-256): null unless the command has a truthy `objectId`, the
object currently exists, its `_lastModifiedBy` is truthy and differs from the
acting user, and its `_updatedAt` is strictly newer than the command's
timestamp.  The fixed advisory `message` string is not modelled. -/
def detectConflict (command : Command) (userId : String)
    (objects : List SceneObject) : Option Conflict :=
  match command.objectId with
  | none => none
  | some objectId =>
      if objectId = "" then none
      else
        match getObject objects objectId with
        | none => none
        | some currentObject =>
            match currentObject.lastModifiedBy with
            | some lastModifiedBy =>
                if lastModifiedBy ≠ "" ∧ lastModifiedBy ≠ userId ∧
                    currentObject.updatedAt > command.timestamp then
                  some { objectId := objectId
                         lastModifiedBy := lastModifiedBy
                         updatedAt := currentObject.updatedAt
                         strategy := "last-write-wins" }
                else none
            | none => none

/-- Result of `OperationLogManager.undo`/`redo`: either
`{ ok: false, reason }` or `{ ok: true, command, conflict, history }`
together with the mutated stacks and room objects (here returned
explicitly; `history` is derived from the returned stacks). -/
inductive OpResult where
  | failed (reason : String)
  | ok (stack : UserStacks) (objects : List SceneObject) (command : Command)
      (conflict : Option Conflict)
deriving DecidableEq, Repr

/-- `OperationLogManager.undo(roomId, userId, context)` (undo-redo.js:258-282)
on one user's stacks and one room's objects: fail on an empty undo stack;
otherwise pop, detect a conflict, apply `command.undo` regardless of the
conflict, and push the command onto the redo stack (capped). -/
def olUndo (maxSteps : Nat) (stack : UserStacks) (userId : String)
    (objects : List SceneObject) (now : Nat) (freshId : String) : OpResult :=
  match stack.undo.getLast? with
  | none => .failed "EMPTY_UNDO"
  | some command =>
      let conflict := detectConflict command userId objects
      let objects' := command.undoOn objects now freshId
      .ok { undo := stack.undo.dropLast
            redo := pushWithCap maxSteps stack.redo command }
        objects' command conflict

/-- `OperationLogManager.redo(roomId, userId, context)` (undo-redo.js:284-308):
symmetric to `olUndo` with `command.execute` and the stacks swapped. -/
def olRedo (maxSteps : Nat) (stack : UserStacks) (userId : String)
    (objects : List SceneObject) (now : Nat) (freshId : String) : OpResult :=
  match stack.redo.getLast? with
  | none => .failed "EMPTY_REDO"
  | some command =>
      let conflict := detectConflict command userId objects
      let objects' := command.executeOn objects now freshId
      .ok { undo := pushWithCap maxSteps stack.undo command
            redo := stack.redo.dropLast }
        objects' command conflict

/-- The counts of `OperationLogManager.getHistory` (undo-redo.js:310-327). -/
structure HistoryView where
  maxSteps : Nat
  undoCount : Nat
  redoCount : Nat
deriving DecidableEq, Repr

/-- `getHistory`'s numeric fields for one user's stacks. -/
def getHistory (maxSteps : Nat) (stack : UserStacks) : HistoryView :=
  { maxSteps := maxSteps
    undoCount := stack.undo.length
    redoCount := stack.redo.length }

/-- The `roomId -> userId -> stacks` map of `OperationLogManager`
(`stacksByRoom`, with `ensureUserStack` defaulting to empty stacks). -/
def StacksMap := String → String → UserStacks

/-- `record` at the map level: `ensureUserStack(roomId, userId)` then record
into exactly that user's stacks. -/
def recordIn (m : StacksMap) (maxSteps mergeWindowMs : Nat)
    (roomId userId : String) (command : Command) : StacksMap :=
  fun r u =>
    if r = roomId ∧ u = userId then
      record maxSteps mergeWindowMs (m roomId userId) command
    else m r u

/-! ## Rooms and membership (`src/backend/rooms.js:136-250`) -/

/-- A membership record as stored in `room.users` (rooms.js:198-205). -/
structure RoomUser where
  userId : String
  username : String
  socketId : Option String
  position : Vec3
  rotation : Vec3
  joinedAt : Nat
deriving DecidableEq, Repr

/-- A room (rooms.js:144-156).  `users` models the insertion-ordered JS `Map`
as an association list keyed by `userId`.  The `whiteboards` list lives in its
own functions below; the persistence write-through (`persistRoom`) is a no-op
on the in-memory state and is not modelled. -/
structure Room where
  id : String
  name : String
  isPublic : Bool
  passwordHash : Option String
  users : List RoomUser
  objects : List SceneObject
  maxUsers : Nat
  persistent : Bool
  ownerId : Option String
  created : Nat
deriving DecidableEq, Repr

/-- `RoomManager.hashPassword(password)` (rooms.js:38-41): `null` for a falsy
password, else the sha256 hex digest (`sha256` abstracts `crypto`). -/
def hashPassword (sha256 : String → String) (password : Option String) :
    Option String :=
  match password with
  | some p => if p = "" then none else some (sha256 p)
  | none => none

/-- `RoomManager.createRoom(options)` (rooms.js:136-161): the room record it
constructs.  (The `AlreadyExists` check against the live room registry and
`generateRoomId` are outside the claims and not modelled.) -/
def createRoom (sha256 : String → String) (roomId : String)
    (name : Option String) (isPublic : Bool) (password : Option String)
    (maxUsers : Nat) (persistent : Bool) (ownerId : Option String)
    (now : Nat) : Room :=
  { id := roomId
    name :=
      match name with
      | some n => if n = "" then "Room " ++ roomId else n
      | none => "Room " ++ roomId
    isPublic := isPublic
    passwordHash := hashPassword sha256 password
    users := []
    objects := []
    maxUsers := if maxUsers = 0 then 50 else maxUsers
    persistent := persistent
    ownerId := ownerId
    created := now }

/-- `RoomManager.getRoomSummary(room)` (rooms.js:83-94). -/
structure RoomSummary where
  id : String
  name : String
  isPublic : Bool
  hasPassword : Bool
  userCount : Nat
  maxUsers : Nat
  created : Nat
  ownerId : Option String
deriving DecidableEq, Repr

/-- `getRoomSummary`: `hasPassword: Boolean(room.passwordHash)`,
`userCount: room.users.size`. -/
def getRoomSummary (room : Room) : RoomSummary :=
  { id := room.id
    name := room.name
    isPublic := room.isPublic
    hasPassword := room.passwordHash.isSome
    userCount := room.users.length
    maxUsers := room.maxUsers
    created := room.created
    ownerId := room.ownerId }

/-- `room.users.get(userId)` on the association-list model. -/
def findUser (users : List RoomUser) (userId : String) : Option RoomUser :=
  users.find? (fun u => u.userId = userId)

/-- `room.users.set(userId, joinedUser)`: replace in place when the key
exists (JS `Map` keeps insertion order), else append. -/
def setUser (users : List RoomUser) (user : RoomUser) : List RoomUser :=
  match users with
  | [] => [user]
  | v :: rest =>
      if v.userId = user.userId then user :: rest
      else v :: setUser rest user

/-- The `userData` argument of `joinRoom`. -/
structure UserData where
  username : Option String := none
  socketId : Option String := none
  position : Option Vec3 := none
  rotation : Option Vec3 := none
deriving DecidableEq, Repr

/-- Outcome of `RoomManager.joinRoom` for a room that exists (the thrown
`Invalid room password` / `Room is full` errors become constructors; the
`Room not found` case is the caller's `getRoom` miss and is outside this
function's body). -/
inductive JoinResult where
  | invalidPassword
  | roomFull
  | joined (room : Room)
deriving DecidableEq, Repr

/-- The `joinedUser` record built by `RoomManager.joinRoom`
(rooms.js:198-205): rejoin preserves the existing member's `joinedAt`. -/
def joinedUser (room : Room) (userId : String) (userData : UserData)
    (now : Nat) : RoomUser :=
  { userId := userId
    username :=
      match userData.username with
      | some s => if s = "" then userId else s
      | none => userId
    socketId := userData.socketId
    position := userData.position.getD ⟨0, 1.6, 0⟩
    rotation := userData.rotation.getD ⟨0, 0, 0⟩
    joinedAt :=
      match findUser room.users userId with
      | some u => u.joinedAt
      | none => now }

/-- The new `ownerId` after a join: `if (!room.ownerId) room.ownerId = userId`
(rooms.js:209-211). -/
def ownerAfterJoin (room : Room) (userId : String) : Option String :=
  match room.ownerId with
  | some o => if o = "" then some userId else some o
  | none => some userId

/-- The capacity check and membership write of `joinRoom`
(rooms.js:193-212). -/
def joinRoomAdmit (room : Room) (userId : String) (userData : UserData)
    (now : Nat) : JoinResult :=
  if findUser room.users userId = none ∧ room.users.length ≥ room.maxUsers
  then .roomFull
  else
    .joined { room with
      users := setUser room.users (joinedUser room userId userData now)
      ownerId := ownerAfterJoin room userId }

/-- `RoomManager.joinRoom(roomId, userId, userData, password)`
(rooms.js:182-215): `if (room.passwordHash)` gate first (only when the room
has a hash), throwing on a mismatching hash, then the capacity check and the
membership write of `joinRoomAdmit`. -/
def joinRoom (sha256 : String → String) (room : Room) (userId : String)
    (userData : UserData) (password : String) (now : Nat) : JoinResult :=
  match room.passwordHash with
  | some h =>
      if hashPassword sha256 (some password) ≠ some h then .invalidPassword
      else joinRoomAdmit room userId userData now
  | none => joinRoomAdmit room userId userData now

/-! ## Whiteboards (`src/backend/rooms.js:371-559`) -/

/-- A whiteboard's undo-relevant state (rooms.js:384-409); the draw actions
in `history`/`redoStack` are opaque to the engine, hence the type parameter.
The geometry fields (`position`, `width`, ...) are pass-through defaults and
are not modelled. -/
structure Whiteboard (Action : Type) where
  id : String
  history : List Action
  redoStack : List Action
  updatedAt : Nat
  updatedBy : Option String
deriving DecidableEq, Repr

/-- `RoomManager.appendWhiteboardAction` (rooms.js:439-468) on the found
whiteboard: push the action, trim the history to its newest 500 entries
(`splice(0, length - 500)`), clear the redo stack, stamp `updatedAt` and
`updatedBy = actorId || null`. -/
def appendWhiteboardAction {Action : Type} (wb : Whiteboard Action)
    (action : Action) (actorId : Option String) (now : Nat) :
    Whiteboard Action :=
  let history := wb.history ++ [action]
  let trimmed :=
    if history.length > 500 then history.drop (history.length - 500)
    else history
  { wb with
    history := trimmed
    redoStack := []
    updatedAt := now
    updatedBy :=
      match actorId with
      | some s => if s = "" then none else some s
      | none => none }

/-- `appendWhiteboardAction` at the room level: locate the whiteboard by id
(`findIndex`), else return `none` (rooms.js:443-449). -/
def appendWhiteboardActionIn {Action : Type}
    (whiteboards : List (Whiteboard Action)) (whiteboardId : String)
    (action : Action) (actorId : Option String) (now : Nat) :
    Option (List (Whiteboard Action) × Whiteboard Action) :=
  match whiteboards with
  | [] => none
  | wb :: rest =>
      if wb.id = whiteboardId then
        let updated := appendWhiteboardAction wb action actorId now
        some (updated :: rest, updated)
      else
        match appendWhiteboardActionIn rest whiteboardId action actorId now with
        | some (rest', updated) => some (wb :: rest', updated)
        | none => none

/-! ## Whiteboard locks (`src/backend/server.js:141-218`) -/

/-- `WHITEBOARD_LOCK_TTL_MS` (server.js:92). -/
def WHITEBOARD_LOCK_TTL_MS : Nat := 4000

/-- A `{whiteboardId, userId, username, acquiredAt, expiresAt}` lock entry
(server.js:179-185). -/
structure WhiteboardLock where
  whiteboardId : String
  userId : String
  username : String
  acquiredAt : Nat
  expiresAt : Nat
deriving DecidableEq, Repr

/-- `getActiveWhiteboardLock(roomId, whiteboardId)` (server.js:148-159) on
one whiteboard's lock slot: expired entries (`expiresAt <= now`) are lazily
deleted.  Returns `(new slot contents, active lock or none)`. -/
def getActiveWhiteboardLock (state : Option WhiteboardLock) (now : Nat) :
    Option WhiteboardLock × Option WhiteboardLock :=
  match state with
  | none => (none, none)
  | some lock =>
      if lock.expiresAt ≤ now then (none, none)
      else (some lock, some lock)

/-- Outcome of `lockWhiteboard`: `{ok:false, reason:"invalid"}`,
`{ok:false, reason:"locked", lock}` or `{ok:true, lock}`. -/
inductive LockAttempt where
  | invalid
  | rejected (current : WhiteboardLock)
  | acquired (lock : WhiteboardLock)
deriving DecidableEq, Repr

/-- `lockWhiteboard(roomId, whiteboardId, userId, username, ttlMs)`
(server.js:161-189) on one whiteboard's lock slot: reject when an unexpired
lock by a DIFFERENT user exists, else (re)acquire with
`expiresAt = now + max(500, ttlMs || WHITEBOARD_LOCK_TTL_MS)`. -/
def lockWhiteboard (state : Option WhiteboardLock)
    (roomId whiteboardId userId username : String) (ttlMs : Nat)
    (now : Nat) : Option WhiteboardLock × LockAttempt :=
  if whiteboardId = "" ∨ roomId = "" ∨ userId = "" then (state, .invalid)
  else
    let cleaned := (getActiveWhiteboardLock state now).1
    let current := (getActiveWhiteboardLock state now).2
    let lock : WhiteboardLock :=
      { whiteboardId := whiteboardId
        userId := userId
        username := username
        acquiredAt := now
        expiresAt :=
          now + max 500 (if ttlMs = 0 then WHITEBOARD_LOCK_TTL_MS else ttlMs) }
    match current with
    | some cur =>
        if cur.userId ≠ userId then (cleaned, .rejected cur)
        else (some lock, .acquired lock)
    | none => (some lock, .acquired lock)

/-- Outcome of `unlockWhiteboard`: `{ok:true, released}` or
`{ok:false, reason:"not-owner", lock}`. -/
inductive UnlockResult where
  | released (previous : WhiteboardLock)
  | noLock
  | notOwner (current : WhiteboardLock)
deriving DecidableEq, Repr

/-- `unlockWhiteboard(roomId, whiteboardId, userId, force)`
(server.js:191-203) on one whiteboard's lock slot: nothing to do when no
unexpired lock is present; only the holder (or `force`) may delete it. -/
def unlockWhiteboard (state : Option WhiteboardLock) (userId : String)
    (force : Bool) (now : Nat) : Option WhiteboardLock × UnlockResult :=
  let cleaned := (getActiveWhiteboardLock state now).1
  match (getActiveWhiteboardLock state now).2 with
  | none => (cleaned, .noLock)
  | some current =>
      if force = false ∧ current.userId ≠ userId then (cleaned, .notOwner current)
      else (none, .released current)

/-! ## Session coordinator handlers (`src/backend/server.js:1317-1473`) -/

/-- The `object-create` handler (server.js:1317-1355): fill in a fresh id if
the payload has none, upsert with the acting user, then record a
CREATE_OBJECT command whose `after` is the stored object. -/
def handleObjectCreate (maxSteps mergeWindowMs : Nat) (userId : String)
    (objects : List SceneObject) (stack : UserStacks) (data : ObjectPayload)
    (now : Nat) (freshId : String) :
    List SceneObject × UserStacks × Command :=
  let payload :=
    { data with
      id := some (match data.id with
        | some s => if s = "" then freshId else s
        | none => freshId) }
  let up := upsertObject objects payload (some userId) now freshId
  let command :=
    mkCommand .createObject userId (some up.2.id) now none
      (some (.obj up.2.toPayload)) { action := some "object-create" }
  (up.1, record maxSteps mergeWindowMs stack command, command)

/-- The `object-delete` handler (server.js:1357-1393): snapshot the current
object as `before`, remove it, record a DELETE_OBJECT command; a missing
object makes the handler return without doing anything. -/
def handleObjectDelete (maxSteps mergeWindowMs : Nat) (userId : String)
    (objects : List SceneObject) (stack : UserStacks) (objectId : String)
    (now : Nat) : List SceneObject × UserStacks × Option Command :=
  if objectId = "" then (objects, stack, none)
  else
    match getObject objects objectId with
    | none => (objects, stack, none)
    | some previousObject =>
        let objects' := (removeObject objects objectId).1
        let command :=
          mkCommand .deleteObject userId (some objectId) now
            (some (.obj previousObject.toPayload)) none
            { action := some "object-delete" }
        (objects', record maxSteps mergeWindowMs stack command, some command)

/-- The non-transient `object-move` handler (server.js:1428-1473): move via
`updateObject` with a position-only patch, then record an UPDATE_OBJECT
command whose `before`/`after` are position-only patches and whose merge key
is `transform:<objectId>`. -/
def handleObjectMove (maxSteps mergeWindowMs : Nat) (userId : String)
    (objects : List SceneObject) (stack : UserStacks) (objectId : String)
    (position : Vec3) (now : Nat) :
    List SceneObject × UserStacks × Option Command :=
  if objectId = "" then (objects, stack, none)
  else
    match getObject objects objectId with
    | none => (objects, stack, none)
    | some previousObject =>
        match updateObject objects objectId { position := some position }
            (some userId) now with
        | none => (objects, stack, none)
        | some (objects', updatedObject) =>
            let command :=
              mkCommand .updateObject userId (some objectId) now
                (some (.obj { position := some previousObject.position }))
                (some (.obj { position := some updatedObject.position }))
                { action := some "object-move"
                  mergeKey := some ("transform:" ++ objectId) }
            (objects', record maxSteps mergeWindowMs stack command, some command)

/-! ## Theorems -/

/-- C8: `appendWhiteboardAction` pushes the action onto the whiteboard's
history, clears the whiteboard's `redoStack`, and trims history to at most
500 entries by dropping the oldest first: appending a 501st action leaves
exactly 500 entries, the surviving 500 (the old entries minus the oldest,
plus the new one) in their original order. -/
theorem whiteboard_history_cap {Action : Type} (wb : Whiteboard Action)
    (action : Action) (actorId : Option String) (now : Nat) :
    (appendWhiteboardAction wb action actorId now).redoStack = [] ∧
    (wb.history.length < 500 →
      (appendWhiteboardAction wb action actorId now).history =
        wb.history ++ [action]) ∧
    (wb.history.length = 500 →
      (appendWhiteboardAction wb action actorId now).history =
        wb.history.tail ++ [action] ∧
      (appendWhiteboardAction wb action actorId now).history.length = 500) := by
  refine ⟨rfl, ?_, ?_⟩
  · intro h
    simp only [appendWhiteboardAction]
    split
    · next hgt =>
        exfalso
        simp only [List.length_append, List.length_cons, List.length_nil] at hgt
        omega
    · rfl
  · intro h
    cases hw : wb.history with
    | nil => rw [hw] at h; simp at h
    | cons x xs =>
        have hxs : xs.length = 499 := by
          rw [hw] at h
          simpa using h
        constructor
        · simp [appendWhiteboardAction, hw, hxs]
        · simp [appendWhiteboardAction, hw, hxs]

/-- Witness for C8 at a 500-entry history: the 501st append keeps exactly 500
entries, dropping the oldest. -/
theorem whiteboard_history_cap_witness :
    (appendWhiteboardAction
        (Whiteboard.mk "W" (List.replicate 500 (0 : Nat)) [9] 3 (some "alice"))
        7 (some "bob") 4).history =
      (List.replicate 500 (0 : Nat)).tail ++ [7] ∧
    (appendWhiteboardAction
        (Whiteboard.mk "W" (List.replicate 500 (0 : Nat)) [9] 3 (some "alice"))
        7 (some "bob") 4).history.length = 500 :=
  (whiteboard_history_cap
      (Whiteboard.mk "W" (List.replicate 500 (0 : Nat)) [9] 3 (some "alice"))
      7 (some "bob") 4).2.2 (by rw [List.length_replicate])

/-- C9: the per-whiteboard lock protocol.  A lock request by user B is
rejected while an unexpired lock held by a different user A exists, and
succeeds once the lock's `expiresAt` has passed without A releasing (the
expiry is checked lazily by `getActiveWhiteboardLock` on the next access);
the lock is released on explicit release by the holder, on forced release,
or by TTL expiry. -/
theorem whiteboard_lock_protocol (roomId whiteboardId userB usernameB : String)
    (lock : WhiteboardLock) (ttlMs now : Nat) :
    (roomId ≠ "" → whiteboardId ≠ "" → userB ≠ "" → lock.userId ≠ userB →
      now < lock.expiresAt →
      lockWhiteboard (some lock) roomId whiteboardId userB usernameB ttlMs now =
        (some lock, .rejected lock)) ∧
    (roomId ≠ "" → whiteboardId ≠ "" → userB ≠ "" → lock.expiresAt ≤ now →
      ∃ acquired,
        lockWhiteboard (some lock) roomId whiteboardId userB usernameB ttlMs now =
          (some acquired, .acquired acquired) ∧
        acquired.userId = userB ∧ acquired.whiteboardId = whiteboardId ∧
        now < acquired.expiresAt) ∧
    (now < lock.expiresAt →
      unlockWhiteboard (some lock) lock.userId false now = (none, .released lock)) ∧
    (now < lock.expiresAt →
      unlockWhiteboard (some lock) userB true now = (none, .released lock)) ∧
    (lock.expiresAt ≤ now →
      getActiveWhiteboardLock (some lock) now = (none, none)) := by
  refine ⟨?_, ?_, ?_, ?_, ?_⟩
  · intro hr hw hb hu hexp
    have hcond : ¬ (whiteboardId = "" ∨ roomId = "" ∨ userB = "") := by
      simp [hr, hw, hb]
    have hne : ¬ lock.expiresAt ≤ now := by omega
    simp only [lockWhiteboard, if_neg hcond, getActiveWhiteboardLock,
      if_neg hne]
    simp [hu]
  · intro hr hw hb hexp
    have hcond : ¬ (whiteboardId = "" ∨ roomId = "" ∨ userB = "") := by
      simp [hr, hw, hb]
    refine ⟨{ whiteboardId := whiteboardId, userId := userB,
              username := usernameB, acquiredAt := now,
              expiresAt := now + max 500
                (if ttlMs = 0 then WHITEBOARD_LOCK_TTL_MS else ttlMs) },
            ?_, rfl, rfl, ?_⟩
    · simp only [lockWhiteboard, if_neg hcond, getActiveWhiteboardLock,
        if_pos hexp]
    · show now < now + max 500
          (if ttlMs = 0 then WHITEBOARD_LOCK_TTL_MS else ttlMs)
      have h500 : 500 ≤ max 500
          (if ttlMs = 0 then WHITEBOARD_LOCK_TTL_MS else ttlMs) :=
        le_max_left _ _
      omega
  · intro hexp
    have hne : ¬ lock.expiresAt ≤ now := by omega
    simp only [unlockWhiteboard, getActiveWhiteboardLock, if_neg hne]
    simp
  · intro hexp
    have hne : ¬ lock.expiresAt ≤ now := by omega
    simp only [unlockWhiteboard, getActiveWhiteboardLock, if_neg hne]
    simp
  · intro hexp
    simp [getActiveWhiteboardLock, hexp]

/-- Witness for C9 at a concrete lock held by alice with TTL expiring at 1000:
bob is rejected at t=900, acquires at t=1000, and alice's own release works. -/
theorem whiteboard_lock_protocol_witness :
    (lockWhiteboard (some (WhiteboardLock.mk "W" "alice" "Alice" 0 1000))
        "R" "W" "bob" "Bob" 4000 900 =
      (some (WhiteboardLock.mk "W" "alice" "Alice" 0 1000),
        .rejected (WhiteboardLock.mk "W" "alice" "Alice" 0 1000))) ∧
    (∃ acquired,
      lockWhiteboard (some (WhiteboardLock.mk "W" "alice" "Alice" 0 1000))
          "R" "W" "bob" "Bob" 4000 1000 =
        (some acquired, .acquired acquired) ∧
      acquired.userId = "bob" ∧ acquired.whiteboardId = "W" ∧
      1000 < acquired.expiresAt) ∧
    (unlockWhiteboard (some (WhiteboardLock.mk "W" "alice" "Alice" 0 1000))
        "alice" false 900 =
      (none, .released (WhiteboardLock.mk "W" "alice" "Alice" 0 1000))) := by
  have h := whiteboard_lock_protocol "R" "W" "bob" "Bob"
    (WhiteboardLock.mk "W" "alice" "Alice" 0 1000) 4000 900
  have h2 := whiteboard_lock_protocol "R" "W" "bob" "Bob"
    (WhiteboardLock.mk "W" "alice" "Alice" 0 1000) 4000 1000
  exact ⟨h.1 (by decide) (by decide) (by decide) (by decide) (by decide),
    h2.2.1 (by decide) (by decide) (by decide) (by decide),
    h.2.2.1 (by decide)⟩

/-- C10: creating a room with an absent or empty-string password stores
`passwordHash = null`, the room's summary reports `hasPassword = false`, and
on such a room `joinRoom` never fails with InvalidPassword and is entirely
independent of the password argument (the password check runs only when
`passwordHash` is non-null); it succeeds whenever the user is already a
member or the room is below capacity. -/
theorem no_password_room_spec (sha256 : String → String) (roomId : String)
    (name : Option String) (isPublic : Bool) (maxUsers : Nat)
    (persistent : Bool) (ownerId : Option String) (now : Nat) :
    (createRoom sha256 roomId name isPublic none maxUsers persistent ownerId
        now).passwordHash = none ∧
    (createRoom sha256 roomId name isPublic (some "") maxUsers persistent
        ownerId now).passwordHash = none ∧
    (getRoomSummary (createRoom sha256 roomId name isPublic none maxUsers
        persistent ownerId now)).hasPassword = false ∧
    (getRoomSummary (createRoom sha256 roomId name isPublic (some "") maxUsers
        persistent ownerId now)).hasPassword = false ∧
    (∀ (room : Room) (u : String) (ud : UserData) (pw pw' : String) (t : Nat),
      room.passwordHash = none →
      joinRoom sha256 room u ud pw t = joinRoom sha256 room u ud pw' t ∧
      joinRoom sha256 room u ud pw t ≠ .invalidPassword ∧
      ((findUser room.users u).isSome ∨ room.users.length < room.maxUsers →
        ∃ room', joinRoom sha256 room u ud pw t = .joined room')) := by
  refine ⟨rfl, rfl, rfl, rfl, ?_⟩
  intro room u ud pw pw' t hnone
  have hshape : joinRoom sha256 room u ud pw t = joinRoomAdmit room u ud t := by
    simp only [joinRoom, hnone]
  have hshape' : joinRoom sha256 room u ud pw' t = joinRoomAdmit room u ud t := by
    simp only [joinRoom, hnone]
  refine ⟨hshape.trans hshape'.symm, ?_, ?_⟩
  · rw [hshape]
    simp only [joinRoomAdmit]
    split
    · exact fun hc => JoinResult.noConfusion hc
    · exact fun hc => JoinResult.noConfusion hc
  · intro hroom
    have hfull : ¬ (findUser room.users u = none ∧
        room.users.length ≥ room.maxUsers) := by
      rcases hroom with h | h
      · intro hc
        rw [hc.1] at h
        simp at h
      · intro hc
        omega
    rw [hshape]
    simp only [joinRoomAdmit]
    rw [if_neg hfull]
    exact ⟨_, rfl⟩

/-- The password gate of `joinRoom` passes: either the room has no password
hash, or the supplied password hashes to it. -/
def passwordGateOk (sha256 : String → String) (room : Room)
    (password : String) : Prop :=
  match room.passwordHash with
  | some h => hashPassword sha256 (some password) = some h
  | none => True

/-- `findUser` after `setUser` with the same key finds exactly the new
record. -/
theorem findUser_setUser (users : List RoomUser) (user : RoomUser) :
    findUser (setUser users user) user.userId = some user := by
  induction users with
  | nil => simp [setUser, findUser]
  | cons v rest ih =>
      simp only [setUser]
      split
      · next h => simp [findUser]
      · next h =>
          simp only [findUser, List.find?_cons] at ih ⊢
          have hd : (decide (v.userId = user.userId)) = false := by
            simp [h]
          rw [hd]
          exact ih

/-- C7: `joinRoom` fails with RoomFull exactly when the password gate passes,
the joining user is not already a member, and the room's user count has
reached `maxUsers`; rejoining with an existing userId at capacity succeeds,
updating that member's record and preserving its `joinedAt`. -/
theorem joinRoom_roomFull_spec (sha256 : String → String) (room : Room)
    (userId : String) (userData : UserData) (password : String) (now : Nat) :
    (joinRoom sha256 room userId userData password now = .roomFull ↔
      passwordGateOk sha256 room password ∧
      findUser room.users userId = none ∧
      room.maxUsers ≤ room.users.length) ∧
    (∀ existing, passwordGateOk sha256 room password →
      findUser room.users userId = some existing →
      ∃ room' joined,
        joinRoom sha256 room userId userData password now = .joined room' ∧
        findUser room'.users userId = some joined ∧
        joined.joinedAt = existing.joinedAt) := by
  have hadmit : joinRoomAdmit room userId userData now = .roomFull ↔
      (findUser room.users userId = none ∧
        room.maxUsers ≤ room.users.length) := by
    simp only [joinRoomAdmit]
    constructor
    · intro hc
      split at hc
      · next hcond => exact hcond
      · exact absurd hc (fun hx => JoinResult.noConfusion hx)
    · intro hrhs
      rw [if_pos hrhs]
  constructor
  · cases hpw : room.passwordHash with
    | none =>
        simp only [joinRoom, hpw, passwordGateOk]
        simpa using hadmit
    | some h =>
        simp only [joinRoom, hpw, passwordGateOk]
        by_cases hh : hashPassword sha256 (some password) = some h
        · rw [if_neg (fun hc => hc hh)]
          simp only [hh, true_and]
          exact hadmit
        · rw [if_pos hh]
          constructor
          · intro hc
            exact absurd hc (fun hx => JoinResult.noConfusion hx)
          · intro hrhs
            exact absurd hrhs.1 hh
  · intro existing hgate hmem
    have hcond : ¬ (findUser room.users userId = none ∧
        room.users.length ≥ room.maxUsers) := by
      intro hc
      rw [hmem] at hc
      exact Option.noConfusion hc.1
    have hjoined : ∃ room' joined,
        joinRoomAdmit room userId userData now = .joined room' ∧
        findUser room'.users userId = some joined ∧
        joined.joinedAt = existing.joinedAt := by
      refine ⟨{ room with
          users := setUser room.users (joinedUser room userId userData now)
          ownerId := ownerAfterJoin room userId },
        joinedUser room userId userData now, ?_, ?_, ?_⟩
      · simp only [joinRoomAdmit]
        rw [if_neg hcond]
      · exact findUser_setUser room.users (joinedUser room userId userData now)
      · simp [joinedUser, hmem]
    cases hpw : room.passwordHash with
    | none =>
        simpa only [joinRoom, hpw] using hjoined
    | some h =>
        rw [passwordGateOk, hpw] at hgate
        simp only [joinRoom, hpw]
        rw [if_neg (fun hc => hc hgate)]
        exact hjoined

/-- Witness for C7: a one-seat room already holding alice rejects bob with
RoomFull but lets alice rejoin, keeping her original `joinedAt`. -/
theorem joinRoom_roomFull_spec_witness :
    joinRoom (fun s => s)
        (Room.mk "R" "room" true none
          [RoomUser.mk "alice" "Alice" none ⟨0, 0, 0⟩ ⟨0, 0, 0⟩ 11] [] 1 false
          (some "alice") 0)
        "bob" {} "" 99 = .roomFull ∧
    ∃ room' joined,
      joinRoom (fun s => s)
          (Room.mk "R" "room" true none
            [RoomUser.mk "alice" "Alice" none ⟨0, 0, 0⟩ ⟨0, 0, 0⟩ 11] [] 1 false
            (some "alice") 0)
          "alice" {} "" 99 = .joined room' ∧
      findUser room'.users "alice" = some joined ∧
      joined.joinedAt = 11 := by
  constructor
  · exact (joinRoom_roomFull_spec (fun s => s)
      (Room.mk "R" "room" true none
        [RoomUser.mk "alice" "Alice" none ⟨0, 0, 0⟩ ⟨0, 0, 0⟩ 11] [] 1 false
        (some "alice") 0) "bob" {} "" 99).1.mpr
      ⟨trivial, by decide, by decide⟩
  · exact (joinRoom_roomFull_spec (fun s => s)
      (Room.mk "R" "room" true none
        [RoomUser.mk "alice" "Alice" none ⟨0, 0, 0⟩ ⟨0, 0, 0⟩ 11] [] 1 false
        (some "alice") 0) "alice" {} "" 99).2
      (RoomUser.mk "alice" "Alice" none ⟨0, 0, 0⟩ ⟨0, 0, 0⟩ 11) trivial
      (by decide)

/-- Popping behaviour of `olUndo` on a nonempty undo stack: the top command
comes off, its `undo` is applied, and it moves to the redo stack. -/
theorem olUndo_pop (maxSteps : Nat) (stack : UserStacks) (userId : String)
    (objects : List SceneObject) (now : Nat) (freshId : String)
    (front : List Command) (c : Command) (h : stack.undo = front ++ [c]) :
    olUndo maxSteps stack userId objects now freshId =
      .ok { undo := front, redo := pushWithCap maxSteps stack.redo c }
        (c.undoOn objects now freshId) c (detectConflict c userId objects) := by
  simp only [olUndo, h, List.getLast?_concat, List.dropLast_concat]

/-- Popping behaviour of `olRedo` on a nonempty redo stack. -/
theorem olRedo_pop (maxSteps : Nat) (stack : UserStacks) (userId : String)
    (objects : List SceneObject) (now : Nat) (freshId : String)
    (front : List Command) (c : Command) (h : stack.redo = front ++ [c]) :
    olRedo maxSteps stack userId objects now freshId =
      .ok { undo := pushWithCap maxSteps stack.undo c, redo := front }
        (c.executeOn objects now freshId) c (detectConflict c userId objects) := by
  simp only [olRedo, h, List.getLast?_concat, List.dropLast_concat]

/-- Full characterization of `detectConflict`: it returns a conflict exactly
when the command has a truthy objectId, the object currently exists, its
`_lastModifiedBy` is a truthy user other than the acting one, and its
`_updatedAt` is strictly newer than the command's timestamp; the conflict
carries that user, that `_updatedAt` and strategy last-write-wins. -/
theorem detectConflict_eq_some_iff (c : Command) (userId : String)
    (objects : List SceneObject) (cf : Conflict) :
    detectConflict c userId objects = some cf ↔
      c.objectId = some cf.objectId ∧ cf.objectId ≠ "" ∧
      ∃ cur, getObject objects cf.objectId = some cur ∧
        cur.lastModifiedBy = some cf.lastModifiedBy ∧
        cf.lastModifiedBy ≠ "" ∧ cf.lastModifiedBy ≠ userId ∧
        c.timestamp < cur.updatedAt ∧
        cf.updatedAt = cur.updatedAt ∧
        cf.strategy = "last-write-wins" := by
  constructor
  · intro h
    rw [detectConflict] at h
    split at h
    · exact Option.noConfusion h
    · next oid hobj =>
        split at h
        · exact Option.noConfusion h
        · next hoid =>
            split at h
            · exact Option.noConfusion h
            · next cur hcur =>
                split at h
                · next w hw =>
                    split at h
                    · next hcond =>
                        injection h with h
                        subst h
                        exact ⟨hobj, hoid, cur, hcur, hw, hcond.1, hcond.2.1,
                          hcond.2.2, rfl, rfl⟩
                    · exact Option.noConfusion h
                · exact Option.noConfusion h
  · rintro ⟨hobj, hoid, cur, hcur, hw, hw1, hw2, ht, hupd, hstr⟩
    have hval : detectConflict c userId objects =
        some ⟨cf.objectId, cf.lastModifiedBy, cur.updatedAt,
          "last-write-wins"⟩ := by
      simp only [detectConflict, hobj]
      rw [if_neg hoid]
      simp only [hcur, hw]
      rw [if_pos ⟨hw1, hw2, ht⟩]
    rw [hval]
    cases cf
    simp_all

/-- C2: before undoing or redoing a command with a non-null objectId, a
conflict is flagged iff the object currently exists, its `_lastModifiedBy`
names a user other than the acting one, and its `_updatedAt` is strictly
newer than the command's timestamp; the conflict carries strategy
last-write-wins with the offending lastModifiedBy/updatedAt, and the
undo/redo still applies the command's state change regardless of the
conflict outcome (the conflict is advisory, never a block).  Absence of
the object or no interceding foreign edit yields no conflict. -/
theorem conflict_detection_spec (c : Command) (userId : String)
    (objects : List SceneObject) :
    ((detectConflict c userId objects).isSome ↔
      ∃ oid, c.objectId = some oid ∧ oid ≠ "" ∧
        ∃ cur, getObject objects oid = some cur ∧
          ∃ w, cur.lastModifiedBy = some w ∧ w ≠ "" ∧ w ≠ userId ∧
            c.timestamp < cur.updatedAt) ∧
    (∀ cf, detectConflict c userId objects = some cf →
      cf.strategy = "last-write-wins" ∧ c.objectId = some cf.objectId ∧
      ∃ cur, getObject objects cf.objectId = some cur ∧
        cur.lastModifiedBy = some cf.lastModifiedBy ∧
        cf.updatedAt = cur.updatedAt) ∧
    (∀ (maxSteps : Nat) (stack : UserStacks) (front : List Command)
        (cmd : Command) (now : Nat) (freshId : String),
      stack.undo = front ++ [cmd] →
      olUndo maxSteps stack userId objects now freshId =
        .ok { undo := front, redo := pushWithCap maxSteps stack.redo cmd }
          (cmd.undoOn objects now freshId) cmd
          (detectConflict cmd userId objects)) ∧
    (∀ (maxSteps : Nat) (stack : UserStacks) (front : List Command)
        (cmd : Command) (now : Nat) (freshId : String),
      stack.redo = front ++ [cmd] →
      olRedo maxSteps stack userId objects now freshId =
        .ok { undo := pushWithCap maxSteps stack.undo cmd, redo := front }
          (cmd.executeOn objects now freshId) cmd
          (detectConflict cmd userId objects)) := by
  refine ⟨?_, ?_, ?_, ?_⟩
  · rw [Option.isSome_iff_exists]
    constructor
    · rintro ⟨cf, hcf⟩
      obtain ⟨hobj, hoid, cur, hcur, hw, hw1, hw2, ht, _, _⟩ :=
        (detectConflict_eq_some_iff c userId objects cf).1 hcf
      exact ⟨cf.objectId, hobj, hoid, cur, hcur, cf.lastModifiedBy, hw, hw1,
        hw2, ht⟩
    · rintro ⟨oid, hobj, hoid, cur, hcur, w, hw, hw1, hw2, ht⟩
      refine ⟨⟨oid, w, cur.updatedAt, "last-write-wins"⟩, ?_⟩
      exact (detectConflict_eq_some_iff c userId objects _).2
        ⟨hobj, hoid, cur, hcur, hw, hw1, hw2, ht, rfl, rfl⟩
  · intro cf hcf
    obtain ⟨hobj, _, cur, hcur, hw, _, _, _, hupd, hstr⟩ :=
      (detectConflict_eq_some_iff c userId objects cf).1 hcf
    exact ⟨hstr, hobj, cur, hcur, hw, hupd⟩
  · intro maxSteps stack front cmd now freshId h
    exact olUndo_pop maxSteps stack userId objects now freshId front cmd h
  · intro maxSteps stack front cmd now freshId h
    exact olRedo_pop maxSteps stack userId objects now freshId front cmd h

/-- Witness for C2: a command of alice timestamped 10 over an object last
modified by bob at 20 flags a last-write-wins conflict naming bob, and the
undo still pops and applies. -/
theorem conflict_detection_spec_witness :
    (detectConflict
        (mkCommand .updateObject "alice" (some "A") 10
          (some (.obj { position := some ⟨1, 0, 0⟩ })) none {})
        "alice"
        [SceneObject.mk "A" none ⟨2, 0, 0⟩ ⟨0, 0, 0⟩ ⟨1, 1, 1⟩ 255
          "MeshStandardMaterial" 5 (some "bob") 3 20 (some "bob")]).isSome ∧
    olUndo 100
        (UserStacks.mk
          [mkCommand .updateObject "alice" (some "A") 10
            (some (.obj { position := some ⟨1, 0, 0⟩ })) none {}] [])
        "alice"
        [SceneObject.mk "A" none ⟨2, 0, 0⟩ ⟨0, 0, 0⟩ ⟨1, 1, 1⟩ 255
          "MeshStandardMaterial" 5 (some "bob") 3 20 (some "bob")] 30 "F" =
      .ok
        { undo := [],
          redo := pushWithCap 100 []
            (mkCommand .updateObject "alice" (some "A") 10
              (some (.obj { position := some ⟨1, 0, 0⟩ })) none {}) }
        ((mkCommand .updateObject "alice" (some "A") 10
            (some (.obj { position := some ⟨1, 0, 0⟩ })) none {}).undoOn
          [SceneObject.mk "A" none ⟨2, 0, 0⟩ ⟨0, 0, 0⟩ ⟨1, 1, 1⟩ 255
            "MeshStandardMaterial" 5 (some "bob") 3 20 (some "bob")] 30 "F")
        (mkCommand .updateObject "alice" (some "A") 10
          (some (.obj { position := some ⟨1, 0, 0⟩ })) none {})
        (detectConflict
          (mkCommand .updateObject "alice" (some "A") 10
            (some (.obj { position := some ⟨1, 0, 0⟩ })) none {})
          "alice"
          [SceneObject.mk "A" none ⟨2, 0, 0⟩ ⟨0, 0, 0⟩ ⟨1, 1, 1⟩ 255
            "MeshStandardMaterial" 5 (some "bob") 3 20 (some "bob")]) := by
  have h := conflict_detection_spec
    (mkCommand .updateObject "alice" (some "A") 10
      (some (.obj { position := some ⟨1, 0, 0⟩ })) none {})
    "alice"
    [SceneObject.mk "A" none ⟨2, 0, 0⟩ ⟨0, 0, 0⟩ ⟨1, 1, 1⟩ 255
      "MeshStandardMaterial" 5 (some "bob") 3 20 (some "bob")]
  refine ⟨h.1.mpr ⟨"A", rfl, by decide, _, rfl, "bob", rfl, by decide,
    by decide, by decide⟩, ?_⟩
  exact h.2.2.1 100
    (UserStacks.mk
      [mkCommand .updateObject "alice" (some "A") 10
        (some (.obj { position := some ⟨1, 0, 0⟩ })) none {}] [])
    [] _ 30 "F" (by simp)

/-- C5: `olUndo` fails with EMPTY_UNDO exactly when the user's undo stack is
empty (producing no state change); otherwise it pops the top command, applies
`command.undo` regardless of the conflict outcome, pushes the command onto
the redo stack, and returns the command, the conflict and the new stacks;
`olRedo` is symmetric with EMPTY_REDO and `command.execute`. -/
theorem undo_redo_contract (maxSteps : Nat) (stack : UserStacks)
    (userId : String) (objects : List SceneObject) (now : Nat)
    (freshId : String) :
    (olUndo maxSteps stack userId objects now freshId = .failed "EMPTY_UNDO" ↔
      stack.undo = []) ∧
    (∀ front c, stack.undo = front ++ [c] →
      olUndo maxSteps stack userId objects now freshId =
        .ok { undo := front, redo := pushWithCap maxSteps stack.redo c }
          (c.undoOn objects now freshId) c (detectConflict c userId objects)) ∧
    (olRedo maxSteps stack userId objects now freshId = .failed "EMPTY_REDO" ↔
      stack.redo = []) ∧
    (∀ front c, stack.redo = front ++ [c] →
      olRedo maxSteps stack userId objects now freshId =
        .ok { undo := pushWithCap maxSteps stack.undo c, redo := front }
          (c.executeOn objects now freshId) c
          (detectConflict c userId objects)) := by
  refine ⟨?_, ?_, ?_, ?_⟩
  · constructor
    · intro h
      cases hu : stack.undo using List.reverseRecOn with
      | nil => rfl
      | append_singleton front c =>
          rw [olUndo_pop maxSteps stack userId objects now freshId front c hu]
            at h
          exact OpResult.noConfusion h
    · intro h
      simp [olUndo, h]
  · intro front c h
    exact olUndo_pop maxSteps stack userId objects now freshId front c h
  · constructor
    · intro h
      cases hr : stack.redo using List.reverseRecOn with
      | nil => rfl
      | append_singleton front c =>
          rw [olRedo_pop maxSteps stack userId objects now freshId front c hr]
            at h
          exact OpResult.noConfusion h
    · intro h
      simp [olRedo, h]
  · intro front c h
    exact olRedo_pop maxSteps stack userId objects now freshId front c h

/-- Witness for C5: empty stacks fail with EMPTY_UNDO, and a one-command
stack pops it. -/
theorem undo_redo_contract_witness :
    olUndo 100 {} "alice" [] 0 "F" = .failed "EMPTY_UNDO" ∧
    olUndo 100
        (UserStacks.mk [mkCommand .createObject "alice" (some "O") 1 none
          (some (.obj { id := some "O" })) {}] [])
        "alice" [] 2 "F" =
      .ok
        { undo := [],
          redo := pushWithCap 100 []
            (mkCommand .createObject "alice" (some "O") 1 none
              (some (.obj { id := some "O" })) {}) }
        ((mkCommand .createObject "alice" (some "O") 1 none
            (some (.obj { id := some "O" })) {}).undoOn [] 2 "F")
        (mkCommand .createObject "alice" (some "O") 1 none
          (some (.obj { id := some "O" })) {})
        (detectConflict
          (mkCommand .createObject "alice" (some "O") 1 none
            (some (.obj { id := some "O" })) {}) "alice" []) := by
  constructor
  · exact (undo_redo_contract 100 {} "alice" [] 0 "F").1.mpr rfl
  · exact (undo_redo_contract 100
      (UserStacks.mk [mkCommand .createObject "alice" (some "O") 1 none
        (some (.obj { id := some "O" })) {}] [])
      "alice" [] 2 "F").2.1 [] _ (by simp)

/-- C3: when `record` receives an UPDATE_OBJECT command whose objectId and
non-null `meta.mergeKey` equal those of the top of that user's undo stack and
whose timestamp is within the merge window of the top's timestamp, the two
collapse into one undo-stack entry whose `after` is the later command's
`after`, whose timestamp advances to the later timestamp, and whose
`meta.merged` counter increments; commands beyond the window (e.g. 600 ms at
the default 500 ms window), without a mergeKey, or on different objects are
pushed as separate entries, and a command never merges into (or touches)
another user's stack. -/
theorem update_merge_spec (maxSteps mergeWindowMs : Nat) (stack : UserStacks)
    (front : List Command) (last c : Command) :
    (∀ oid k, stack.undo = front ++ [last] →
      last.type = .updateObject → c.type = .updateObject →
      last.objectId = some oid → oid ≠ "" → c.objectId = some oid →
      last.meta.mergeKey = some k → k ≠ "" → c.meta.mergeKey = some k →
      c.timestamp - last.timestamp ≤ mergeWindowMs →
      record maxSteps mergeWindowMs stack c =
        { undo := front ++ [mergeCommands last c], redo := [] } ∧
      (mergeCommands last c).after = c.after ∧
      (mergeCommands last c).timestamp = c.timestamp ∧
      (mergeCommands last c).meta.merged = some (mergedCount last.meta + 1)) ∧
    (stack.undo = front ++ [last] →
      mergeWindowMs < c.timestamp - last.timestamp →
      record maxSteps mergeWindowMs stack c =
        { undo := pushWithCap maxSteps stack.undo c, redo := [] }) ∧
    (stack.undo = front ++ [last] →
      last.meta.mergeKey = none ∨ c.meta.mergeKey = none →
      record maxSteps mergeWindowMs stack c =
        { undo := pushWithCap maxSteps stack.undo c, redo := [] }) ∧
    (stack.undo = front ++ [last] →
      c.objectId ≠ last.objectId →
      record maxSteps mergeWindowMs stack c =
        { undo := pushWithCap maxSteps stack.undo c, redo := [] }) ∧
    (∀ (m : StacksMap) (roomId u u' : String), u ≠ u' →
      recordIn m maxSteps mergeWindowMs roomId u c roomId u' = m roomId u') := by
  refine ⟨?_, ?_, ?_, ?_, ?_⟩
  · intro oid k h h1 h2 h3 h4 h5 h6 h7 h8 h9
    have hg : stack.undo.getLast? = some last := by
      rw [h]
      exact List.getLast?_concat _
    have hcan : canMergeWith last c mergeWindowMs = true := by
      simp [canMergeWith, h1, h2, h3, h4, h5, h6, h7, h8, h9, strTruthy]
    refine ⟨?_, rfl, rfl, rfl⟩
    simp only [record, hg, hcan, if_true]
    simp [h, List.dropLast_concat]
  · intro h hw
    have hg : stack.undo.getLast? = some last := by
      rw [h]
      exact List.getLast?_concat _
    have hcan : canMergeWith last c mergeWindowMs = false := by
      unfold canMergeWith
      have hnw : ¬ (c.timestamp - last.timestamp ≤ mergeWindowMs) := by omega
      simp [hnw]
    simp only [record, hg, hcan, Bool.false_eq_true, if_false]
  · intro h hk
    have hg : stack.undo.getLast? = some last := by
      rw [h]
      exact List.getLast?_concat _
    have hcan : canMergeWith last c mergeWindowMs = false := by
      unfold canMergeWith
      rcases hk with hk | hk <;> simp [hk, strTruthy]
    simp only [record, hg, hcan, Bool.false_eq_true, if_false]
  · intro h hne
    have hg : stack.undo.getLast? = some last := by
      rw [h]
      exact List.getLast?_concat _
    have hcan : canMergeWith last c mergeWindowMs = false := by
      unfold canMergeWith
      cases hlo : last.objectId with
      | none => simp
      | some oid =>
          have hno : ¬ (c.objectId = some oid) := by
            intro hc
            exact hne (by rw [hc, hlo])
          simp [hno]
    simp only [record, hg, hcan, Bool.false_eq_true, if_false]
  · intro m roomId u u' hne
    have hne' : ¬ (u' = u) := fun hc => hne hc.symm
    simp [recordIn, hne']

/-- A concrete drag-step command: an UPDATE_OBJECT on object `O` by alice at
time `t` with the move merge key, as `handleObjectMove` builds it. -/
def mvCmd (t : Nat) : Command :=
  mkCommand .updateObject "alice" (some "O") t
    (some (.obj { position := some ⟨1, 0, 0⟩ }))
    (some (.obj { position := some ⟨2, 0, 0⟩ }))
    { action := some "object-move", mergeKey := some "transform:O" }

/-- Witness for C3: two such commands 100 ms apart collapse to one entry
(merged counter 2, timestamp and `after` of the later), while 600 ms apart
they stay two entries. -/
theorem update_merge_spec_witness :
    record 100 500 (UserStacks.mk [mvCmd 0] []) (mvCmd 100) =
      { undo := [mergeCommands (mvCmd 0) (mvCmd 100)], redo := [] } ∧
    (mergeCommands (mvCmd 0) (mvCmd 100)).after = (mvCmd 100).after ∧
    (mergeCommands (mvCmd 0) (mvCmd 100)).timestamp = 100 ∧
    (mergeCommands (mvCmd 0) (mvCmd 100)).meta.merged = some 2 ∧
    record 100 500 (UserStacks.mk [mvCmd 0] []) (mvCmd 600) =
      { undo := [mvCmd 0, mvCmd 600], redo := [] } := by
  have h := update_merge_spec 100 500 (UserStacks.mk [mvCmd 0] []) []
    (mvCmd 0) (mvCmd 100)
  have h6 := update_merge_spec 100 500 (UserStacks.mk [mvCmd 0] []) []
    (mvCmd 0) (mvCmd 600)
  obtain ⟨hrec, hafter, hts, hm⟩ :=
    h.1 "O" "transform:O" rfl rfl rfl (by decide) (by decide) (by decide)
      (by decide) (by decide) (by decide) (by decide)
  have hpush := h6.2.1 rfl (by decide)
  exact ⟨hrec, hafter, hts, hm, hpush.trans (by decide)⟩

/-! ## C4: bounded-stack invariants over arbitrary operation sequences -/

/-- One call against a user's operation log: `record`, `undo` or `redo`
(the latter two carrying the room context they run against). -/
inductive LogOp where
  | recordOp (c : Command)
  | undoOp (objects : List SceneObject) (now : Nat) (freshId : String)
  | redoOp (objects : List SceneObject) (now : Nat) (freshId : String)

/-- Apply one operation-log call to a user's stacks (a failed undo/redo
leaves the stacks unchanged, as in `OperationLogManager`). -/
def applyLogOp (maxSteps mergeWindowMs : Nat) (userId : String)
    (stack : UserStacks) : LogOp → UserStacks
  | .recordOp c => record maxSteps mergeWindowMs stack c
  | .undoOp objects now freshId =>
      match olUndo maxSteps stack userId objects now freshId with
      | .ok stack' _ _ _ => stack'
      | .failed _ => stack
  | .redoOp objects now freshId =>
      match olRedo maxSteps stack userId objects now freshId with
      | .ok stack' _ _ _ => stack'
      | .failed _ => stack

/-- Run a sequence of operation-log calls from the empty stacks of
`ensureUserStack`. -/
def runLogOps (maxSteps mergeWindowMs : Nat) (userId : String)
    (ops : List LogOp) : UserStacks :=
  ops.foldl (applyLogOp maxSteps mergeWindowMs userId) {}

/-- The number of commands ever recorded in a sequence of calls. -/
def countRecords (ops : List LogOp) : Nat :=
  ops.countP (fun op =>
    match op with
    | .recordOp _ => true
    | _ => false)

/-- `pushWithCap` keeps a stack within `maxSteps`. -/
theorem pushWithCap_length_le (maxSteps : Nat) (l : List Command) (c : Command)
    (hmax : 1 ≤ maxSteps) (h : l.length ≤ maxSteps) :
    (pushWithCap maxSteps l c).length ≤ maxSteps := by
  simp only [pushWithCap]
  split
  · next hgt =>
      simp only [List.length_tail, List.length_append, List.length_cons,
        List.length_nil]
      omega
  · next hle =>
      simp only [List.length_append, List.length_cons, List.length_nil]
        at hle ⊢
      omega

/-- `pushWithCap` grows a stack by at most one. -/
theorem pushWithCap_length_le_succ (maxSteps : Nat) (l : List Command)
    (c : Command) : (pushWithCap maxSteps l c).length ≤ l.length + 1 := by
  simp only [pushWithCap]
  split
  · simp only [List.length_tail, List.length_append, List.length_cons,
      List.length_nil]
    omega
  · simp only [List.length_append, List.length_cons, List.length_nil]
    omega

/-- `record` keeps the undo stack within `maxSteps` and grows it by at most
one, and always clears the redo stack. -/
theorem record_length_spec (maxSteps mergeWindowMs : Nat) (stack : UserStacks)
    (c : Command) (hmax : 1 ≤ maxSteps)
    (h : stack.undo.length ≤ maxSteps) :
    (record maxSteps mergeWindowMs stack c).undo.length ≤ maxSteps ∧
    (record maxSteps mergeWindowMs stack c).undo.length ≤
      stack.undo.length + 1 ∧
    (record maxSteps mergeWindowMs stack c).redo = [] := by
  have hboth : (record maxSteps mergeWindowMs stack c).undo.length ≤ maxSteps ∧
      (record maxSteps mergeWindowMs stack c).undo.length ≤
        stack.undo.length + 1 := by
    simp only [record]
    split
    · next lastCommand heq =>
        split
        · have hne : stack.undo ≠ [] := by
            intro hnil
            rw [hnil] at heq
            exact Option.noConfusion heq
          have hpos : 0 < stack.undo.length := List.length_pos.mpr hne
          constructor <;>
            · simp only [List.length_append, List.length_dropLast,
                List.length_cons, List.length_nil]
              omega
        · exact ⟨pushWithCap_length_le maxSteps stack.undo c hmax h,
            pushWithCap_length_le_succ maxSteps stack.undo c⟩
    · exact ⟨pushWithCap_length_le maxSteps stack.undo c hmax h,
        pushWithCap_length_le_succ maxSteps stack.undo c⟩
  exact ⟨hboth.1, hboth.2, rfl⟩

/-- One `applyLogOp` step preserves the per-stack bound and increases the
total held-command count by at most the number of records in the step. -/
theorem applyLogOp_bounds (maxSteps mergeWindowMs : Nat) (userId : String)
    (st : UserStacks) (op : LogOp) (hmax : 1 ≤ maxSteps)
    (h1 : st.undo.length ≤ maxSteps) (h2 : st.redo.length ≤ maxSteps) :
    (applyLogOp maxSteps mergeWindowMs userId st op).undo.length ≤ maxSteps ∧
    (applyLogOp maxSteps mergeWindowMs userId st op).redo.length ≤ maxSteps ∧
    (applyLogOp maxSteps mergeWindowMs userId st op).undo.length +
      (applyLogOp maxSteps mergeWindowMs userId st op).redo.length ≤
      st.undo.length + st.redo.length + countRecords [op] := by
  cases op with
  | recordOp c =>
      have hr := record_length_spec maxSteps mergeWindowMs st c hmax h1
      have happ : applyLogOp maxSteps mergeWindowMs userId st (.recordOp c) =
          record maxSteps mergeWindowMs st c := rfl
      have hredo : (record maxSteps mergeWindowMs st c).redo.length = 0 := by
        rw [hr.2.2]
        rfl
      have hcnt : countRecords [LogOp.recordOp c] = 1 := by
        simp [countRecords]
      rw [happ, hcnt]
      have h3 := hr.2.1
      exact ⟨hr.1, by omega, by omega⟩
  | undoOp objects now freshId =>
      have hcnt : countRecords [LogOp.undoOp objects now freshId] = 0 := by
        simp [countRecords]
      rw [hcnt]
      cases hg : st.undo.getLast? with
      | none =>
          have hfail : applyLogOp maxSteps mergeWindowMs userId st
              (.undoOp objects now freshId) = st := by
            simp [applyLogOp, olUndo, hg]
          rw [hfail]
          exact ⟨h1, h2, by omega⟩
      | some cmd =>
          have hne : st.undo ≠ [] := by
            intro hnil
            rw [hnil] at hg
            exact Option.noConfusion hg
          have hpos : 0 < st.undo.length := List.length_pos.mpr hne
          have hok : applyLogOp maxSteps mergeWindowMs userId st
              (.undoOp objects now freshId) =
              { undo := st.undo.dropLast
                redo := pushWithCap maxSteps st.redo cmd } := by
            simp [applyLogOp, olUndo, hg]
          rw [hok]
          have hp1 := pushWithCap_length_le maxSteps st.redo cmd hmax h2
          have hp2 := pushWithCap_length_le_succ maxSteps st.redo cmd
          refine ⟨?_, hp1, ?_⟩
          · simp only [List.length_dropLast]
            omega
          · simp only [List.length_dropLast]
            omega
  | redoOp objects now freshId =>
      have hcnt : countRecords [LogOp.redoOp objects now freshId] = 0 := by
        simp [countRecords]
      rw [hcnt]
      cases hg : st.redo.getLast? with
      | none =>
          have hfail : applyLogOp maxSteps mergeWindowMs userId st
              (.redoOp objects now freshId) = st := by
            simp [applyLogOp, olRedo, hg]
          rw [hfail]
          exact ⟨h1, h2, by omega⟩
      | some cmd =>
          have hne : st.redo ≠ [] := by
            intro hnil
            rw [hnil] at hg
            exact Option.noConfusion hg
          have hpos : 0 < st.redo.length := List.length_pos.mpr hne
          have hok : applyLogOp maxSteps mergeWindowMs userId st
              (.redoOp objects now freshId) =
              { undo := pushWithCap maxSteps st.undo cmd
                redo := st.redo.dropLast } := by
            simp [applyLogOp, olRedo, hg]
          rw [hok]
          have hp1 := pushWithCap_length_le maxSteps st.undo cmd hmax h1
          have hp2 := pushWithCap_length_le_succ maxSteps st.undo cmd
          refine ⟨hp1, ?_, ?_⟩
          · simp only [List.length_dropLast]
            omega
          · simp only [List.length_dropLast]
            omega

/-- Folding any sequence of calls preserves the bounds, counting records. -/
theorem runLogOps_bounds_aux (maxSteps mergeWindowMs : Nat) (userId : String)
    (hmax : 1 ≤ maxSteps) :
    ∀ (ops : List LogOp) (st : UserStacks),
      st.undo.length ≤ maxSteps → st.redo.length ≤ maxSteps →
      (List.foldl (applyLogOp maxSteps mergeWindowMs userId) st
        ops).undo.length ≤ maxSteps ∧
      (List.foldl (applyLogOp maxSteps mergeWindowMs userId) st
        ops).redo.length ≤ maxSteps ∧
      (List.foldl (applyLogOp maxSteps mergeWindowMs userId) st
          ops).undo.length +
        (List.foldl (applyLogOp maxSteps mergeWindowMs userId) st
          ops).redo.length ≤
        st.undo.length + st.redo.length + countRecords ops := by
  intro ops
  induction ops with
  | nil =>
      intro st hh1 hh2
      exact ⟨hh1, hh2, by simp [countRecords]⟩
  | cons op rest ih =>
      intro st hh1 hh2
      have hstep := applyLogOp_bounds maxSteps mergeWindowMs userId st op hmax
        hh1 hh2
      have hrec := ih (applyLogOp maxSteps mergeWindowMs userId st op)
        hstep.1 hstep.2.1
      refine ⟨hrec.1, hrec.2.1, ?_⟩
      have hcount : countRecords (op :: rest) =
          countRecords [op] + countRecords rest := by
        cases op <;> simp [countRecords, List.countP_cons] <;> omega
      have h3 := hrec.2.2
      have h4 := hstep.2.2
      simp only [List.foldl_cons] at h3 ⊢
      omega

/-- C4: for every user and every sequence of record/undo/redo calls, the undo
count plus the redo count never exceeds the number of commands ever recorded
for that user, each stack's length never exceeds `maxSteps`, and recording a
command always (in particular for a non-merged command) empties that user's
redo stack. -/
theorem stack_bounds_invariant (maxSteps mergeWindowMs : Nat)
    (userId : String) (ops : List LogOp) (hmax : 1 ≤ maxSteps) :
    (getHistory maxSteps (runLogOps maxSteps mergeWindowMs userId
        ops)).undoCount +
      (getHistory maxSteps (runLogOps maxSteps mergeWindowMs userId
        ops)).redoCount ≤ countRecords ops ∧
    (runLogOps maxSteps mergeWindowMs userId ops).undo.length ≤ maxSteps ∧
    (runLogOps maxSteps mergeWindowMs userId ops).redo.length ≤ maxSteps ∧
    (∀ (stack : UserStacks) (c : Command),
      (record maxSteps mergeWindowMs stack c).redo = []) := by
  have h := runLogOps_bounds_aux maxSteps mergeWindowMs userId hmax ops {}
    (Nat.zero_le _) (Nat.zero_le _)
  refine ⟨?_, h.1, h.2.1, fun stack c => rfl⟩
  have h3 := h.2.2
  dsimp only [List.length_nil] at h3
  simp only [runLogOps, getHistory]
  omega

/-- Witness for C4 at `maxSteps = 100` on a record-undo-redo-record
sequence. -/
theorem stack_bounds_invariant_witness :
    (getHistory 100 (runLogOps 100 500 "alice"
        [.recordOp (mvCmd 0), .undoOp [] 1 "F", .redoOp [] 2 "F",
          .recordOp (mvCmd 3)])).undoCount +
      (getHistory 100 (runLogOps 100 500 "alice"
        [.recordOp (mvCmd 0), .undoOp [] 1 "F", .redoOp [] 2 "F",
          .recordOp (mvCmd 3)])).redoCount ≤
      countRecords [.recordOp (mvCmd 0), .undoOp [] 1 "F", .redoOp [] 2 "F",
        .recordOp (mvCmd 3)] ∧
    (runLogOps 100 500 "alice"
      [.recordOp (mvCmd 0), .undoOp [] 1 "F", .redoOp [] 2 "F",
        .recordOp (mvCmd 3)]).undo.length ≤ 100 ∧
    (runLogOps 100 500 "alice"
      [.recordOp (mvCmd 0), .undoOp [] 1 "F", .redoOp [] 2 "F",
        .recordOp (mvCmd 3)]).redo.length ≤ 100 ∧
    (∀ (stack : UserStacks) (c : Command),
      (record 100 500 stack c).redo = []) :=
  stack_bounds_invariant 100 500 "alice"
    [.recordOp (mvCmd 0), .undoOp [] 1 "F", .redoOp [] 2 "F",
      .recordOp (mvCmd 3)] (by decide)

/-- A stored scene object at `_version` 5, last modified by alice at t=10:
the starting state for the stale-snapshot counterexamples. -/
def staleVersionObject : SceneObject :=
  { id := "A"
    type := none
    position := ⟨1, 0, 0⟩
    rotation := ⟨0, 0, 0⟩
    scale := ⟨1, 1, 1⟩
    color := 0xff0000
    material := "MeshStandardMaterial"
    createdAt := 10
    createdBy := some "alice"
    version := 5
    updatedAt := 10
    lastModifiedBy := some "alice" }

/-- Counterexample for C6: `_version` does NOT strictly increase through
every accepted mutation, and `_updatedAt` CAN be client-supplied.
`updateObject` recomputes `_version` from the shallow-merged payload, so an
update whose payload carries `_version: 0` drops a version-5 object to
version 1; and `upsertObject` without an actor keeps the payload's
`_updatedAt` verbatim. -/
theorem version_monotone_counterexample :
    (getObject [staleVersionObject] "A").map SceneObject.version = some 5 ∧
    (updateObject [staleVersionObject] "A" { version := some 0 }
        (some "mallory") 200).map (fun pr => pr.2.version) = some 1 ∧
    ¬ (5 : Nat) < 1 ∧
    ((upsertObject [] { id := some "B", updatedAt := some 123 } none 200
        "F").2).updatedAt = 123 := by decide

/-- C6 as amended: when an actorId is supplied, `_updatedAt` is set from the
mutation instant and `_lastModifiedBy` is stamped, and `_version` becomes one
plus the `_version` of the effective payload — so it strictly increases
across `updateObject` calls whose updates do not themselves supply a
`_version` (while a stale client- or snapshot-supplied `_version` can make it
stall or decrease, and a null actor keeps client timestamps). -/
theorem version_updatedAt_amended (objects : List SceneObject)
    (objectId : String) (updates : ObjectPayload) (actor : String)
    (now : Nat) (ha : actor ≠ "") (hv : updates.version = none) :
    (∀ objects' updated,
      updateObject objects objectId updates (some actor) now =
        some (objects', updated) →
      ∃ cur, getObject objects objectId = some cur ∧
        updated.version = cur.version + 1 ∧ cur.version < updated.version ∧
        updated.updatedAt = now ∧ updated.lastModifiedBy = some actor) ∧
    (∀ (payload : ObjectPayload) (freshId : String),
      ((upsertObject objects payload (some actor) now freshId).2).updatedAt =
        now ∧
      ((upsertObject objects payload (some actor) now freshId).2).version =
        payload.version.getD 0 + 1 ∧
      ((upsertObject objects payload (some actor) now
          freshId).2).lastModifiedBy = some actor) := by
  constructor
  · induction objects with
    | nil =>
        intro objects' updated h
        exact absurd h (by simp [updateObject])
    | cons o rest ih =>
        intro objects' updated h
        by_cases ho : o.id = objectId
        · simp only [updateObject, if_pos ho] at h
          obtain ⟨h1, h2⟩ := Prod.mk.injEq .. ▸ (Option.some.injEq .. ▸ h :)
          refine ⟨o, ?_, ?_, ?_, ?_, ?_⟩
          · simp [getObject, ho]
          · rw [← h2]
            simp [normalizeObjectPayload, mergeObjectUpdates, hv, ha]
          · rw [← h2]
            simp [normalizeObjectPayload, mergeObjectUpdates, hv, ha]
          · rw [← h2]
            simp [normalizeObjectPayload, mergeObjectUpdates, ha]
          · rw [← h2]
            simp [normalizeObjectPayload, mergeObjectUpdates, ha]
        · simp only [updateObject, if_neg ho] at h
          cases hrec : updateObject rest objectId updates (some actor) now with
          | none => rw [hrec] at h; exact Option.noConfusion h
          | some pr =>
              rw [hrec] at h
              obtain ⟨cur, hcur, hv1, hv2, hu, hl⟩ :=
                ih pr.1 pr.2 (by rw [hrec])
              injection h with h
              have hupd : updated = pr.2 := by
                have := congrArg Prod.snd h
                exact this.symm
              refine ⟨cur, ?_, ?_, ?_, ?_, ?_⟩
              · simpa [getObject, ho] using hcur
              · rw [hupd]; exact hv1
              · rw [hupd]; exact hv2
              · rw [hupd]; exact hu
              · rw [hupd]; exact hl
  · intro payload freshId
    refine ⟨?_, ?_, ?_⟩ <;>
      simp [upsertObject, normalizeObjectPayload, ha]

/-- Witness for C6's amended theorem: updating the version-5 object with a
position-only patch bumps it to version 6 and stamps `_updatedAt` with the
mutation instant. -/
theorem version_updatedAt_amended_witness :
    ∃ cur, getObject [staleVersionObject] "A" = some cur ∧
      ∃ objects' updated,
        updateObject [staleVersionObject] "A" { position := some ⟨3, 0, 0⟩ }
          (some "alice") 50 = some (objects', updated) ∧
        updated.version = cur.version + 1 ∧ updated.updatedAt = 50 := by
  have h := (version_updatedAt_amended [staleVersionObject] "A"
    { position := some ⟨3, 0, 0⟩ } "alice" 50 (by decide) rfl).1 _ _ rfl
  obtain ⟨cur, hcur, h1, h2, h3, h4⟩ := h
  exact ⟨cur, hcur, _, _, rfl, h1, h3⟩

/-- The scene produced by an `OpResult`, when the call succeeded. -/
def opObjects : OpResult → Option (List SceneObject)
  | .ok _ objects _ _ => some objects
  | .failed _ => none

/-- One recorded move of the pre-existing version-5 object `A` by alice. -/
def c1MoveStep : List SceneObject × UserStacks × Option Command :=
  handleObjectMove 100 500 "alice" [staleVersionObject] {} "A" ⟨5, 0, 0⟩ 20

/-- Undoing that single recorded move. -/
def c1UndoStep : OpResult :=
  olUndo 100 c1MoveStep.2.1 "alice" c1MoveStep.1 30 "F"

/-- Counterexample for C1: after one recorded UPDATE_OBJECT command on a
pre-existing object, one undo restores the position but NOT the exact
pre-sequence scene state: the undo's own `updateObject` re-normalization
leaves `_version` at 7 (the pre-sequence value was 5) and refreshes
`_updatedAt`, so the scene differs from the pre-sequence scene. -/
theorem undo_roundtrip_counterexample :
    ((opObjects c1UndoStep).bind (fun objs => getObject objs "A")).map
        SceneObject.position = some ⟨1, 0, 0⟩ ∧
    ((opObjects c1UndoStep).bind (fun objs => getObject objs "A")).map
        SceneObject.version = some 7 ∧
    (getObject [staleVersionObject] "A").map SceneObject.version = some 5 ∧
    opObjects c1UndoStep ≠ some [staleVersionObject] := by decide

/-- The spec's example, step 1: alice creates object `O` at `{1,0,0}`. -/
def c1ExampleCreate : List SceneObject × UserStacks × Command :=
  handleObjectCreate 100 500 "alice" [] {}
    { id := some "O", position := some ⟨1, 0, 0⟩ } 10 "F1"

/-- Step 2: alice moves `O` to `{5,0,0}` (recorded, non-transient). -/
def c1ExampleMove : List SceneObject × UserStacks × Option Command :=
  handleObjectMove 100 500 "alice" c1ExampleCreate.1 c1ExampleCreate.2.1 "O"
    ⟨5, 0, 0⟩ 20

/-- Step 3: first undo. -/
def c1ExampleUndo1 : OpResult :=
  olUndo 100 c1ExampleMove.2.1 "alice" c1ExampleMove.1 30 "F2"

/-- Step 4: second undo, continuing from the first undo's state. -/
def c1ExampleUndo2 : OpResult :=
  match c1ExampleUndo1 with
  | .ok stack objects _ _ => olUndo 100 stack "alice" objects 40 "F3"
  | .failed reason => .failed reason

/-- C1 as amended: the undo round-trip holds for the spec's own example (but
not universally) — after alice creates `O` at `{1,0,0}` and moves it to
`{5,0,0}`, both executed and recorded, one undo makes `O.position` equal
`{1,0,0}` again and a second undo removes `O`, leaving the scene exactly the
pre-sequence empty scene.  In general N undos after N recorded commands need
not restore the exact pre-sequence state: undoing an UPDATE on an object that
already existed before the sequence refreshes `_version`/`_updatedAt` (see
the counterexample). -/
theorem undo_roundtrip_amended :
    (getObject c1ExampleMove.1 "O").map SceneObject.position =
      some ⟨5, 0, 0⟩ ∧
    ((opObjects c1ExampleUndo1).bind (fun objs => getObject objs "O")).map
        SceneObject.position = some ⟨1, 0, 0⟩ ∧
    opObjects c1ExampleUndo2 = some [] := by decide

/-- Witness for C10: a concrete room without a password hash accepts a join
with an arbitrary wrong password. -/
theorem no_password_room_spec_witness :
    (createRoom (fun s => s) "R" (some "room") true none 0 false none
        5).passwordHash = none ∧
    ∃ room',
      joinRoom (fun s => s)
        (createRoom (fun s => s) "R" (some "room") true none 0 false none 5)
        "alice" {} "totally-wrong" 6 = .joined room' := by
  have h := (no_password_room_spec (fun s => s) "R" (some "room") true 0 false
    none 5).2.2.2.2
    (createRoom (fun s => s) "R" (some "room") true none 0 false none 5)
    "alice" {} "totally-wrong" "x" 6 rfl
  exact ⟨(no_password_room_spec (fun s => s) "R" (some "room") true 0 false
    none 5).1, h.2.2 (by decide)⟩

end XRCollab
